import Mathlib

/-!
A shallow embedding of `src/phenology.py` (class `DVS_Phenology` of
tomgrosim-on-pcse): the daily rate calculator (`calc_rates` with its helpers
`_dev_rate_plant` and `_dev_rate_fruit`), the daily state integrator
(`integrate`) with its anthesis and leaf-emergence bookkeeping, and the
crop-finish handler (`_on_CROP_FINISH`).

Modelling conventions: Python floats are real numbers, simulation days are
naturals, `None` is `Option.none`, and the exceptional control flow of the
source (TypeError, ValueError, IndexError) is explicit.  Mutating loops
return the container as mutated so far together with the error that aborted
them, matching Python's in-place list mutation under a raised exception.
-/

namespace Phenology

/-- Python runtime errors raised by the embedded code. -/
inductive PyErr where
  | typeError : PyErr
  | valueError : PyErr
  | indexError : PyErr
  deriving DecidableEq

/-- Python values occurring at the call sites we model: the class instance
(`self`) and float numbers. -/
inductive PyVal where
  | obj : PyVal
  | num : ℝ → PyVal

/-- Nested optional-date container, the shape of `DOEL`, `DOEF`, `DOHF`. -/
abbrev LL := List (List (Option ℕ))

/-- The fields of `DVS_Phenology.StateVariables` (lines 32-37 of
`phenology.py`). -/
structure PhenoState where
  DVS : ℝ
  DVSF : List (List ℝ)
  DOEL : LL
  DOEF : LL
  DOHF : LL

/-- The fields of `DVS_Phenology.RateVariables` (lines 28-30). -/
structure PhenoRates where
  DVR : ℝ
  DVRF : List (List ℝ)

/-- Lines 77-86, `_dev_rate_plant`, a function of its two declared
parameters `(drvTEMP, sDVS)`; `math.log` raises ValueError on a non-positive
argument, and a call with any other number of arguments raises TypeError
(Python arity check). -/
noncomputable def dev_rate_plant (args : List PyVal) : Except PyErr ℝ :=
  match args with
  | [PyVal.num t, PyVal.num d] =>
      if t ≤ 0 then Except.error PyErr.valueError
      else Except.ok (-0.286 + 0.1454 * Real.log t - 0.001 * d)
  | [_, _] => Except.error PyErr.typeError
  | _ => Except.error PyErr.typeError

/-- Lines 88-92, `_dev_rate_fruit`, a function of its two declared
parameters `(drvTEMP, sDVSF)`; same error conventions as
`dev_rate_plant`. -/
noncomputable def dev_rate_fruit (args : List PyVal) : Except PyErr ℝ :=
  match args with
  | [PyVal.num t, PyVal.num x] =>
      if t / 20 ≤ 0 then Except.error PyErr.valueError
      else Except.ok (0.0181 + Real.log (t / 20) *
        (0.0392 - 0.213 * x + 0.415 * x ^ 2 - 0.24 * x ^ 3))
  | [_, _] => Except.error PyErr.typeError
  | _ => Except.error PyErr.typeError

/-- Python bound-method invocation: the instance is passed as an extra
first positional argument in front of the explicit ones.  Both helpers are
defined without a `self` parameter but invoked as `self._dev_rate_plant(...)`
and `self._dev_rate_fruit(...)` in `calc_rates`. -/
def boundCall (f : List PyVal → Except PyErr ℝ) (args : List PyVal) : Except PyErr ℝ :=
  f (PyVal.obj :: args)

/-- Lines 60-75, `calc_rates`: computes `r.DVR` from `_dev_rate_plant` and
`r.DVRF` elementwise over `s.DVSF` from `_dev_rate_fruit`, both through
bound-method calls.  The state `s` is only read, never written; the rates
are the function's result. -/
noncomputable def calc_rates (day : ℕ) (drvTEMP : ℝ) (s : PhenoState) :
    Except PyErr PhenoRates :=
  (boundCall dev_rate_plant [PyVal.num drvTEMP, PyVal.num s.DVS]).bind fun dvr =>
  (s.DVSF.mapM (fun (row : List ℝ) => row.mapM (fun x =>
      boundCall dev_rate_fruit [PyVal.num drvTEMP, PyVal.num x]))).bind fun dvrf =>
  Except.ok ⟨dvr, dvrf⟩

/-- Elementwise structure of line 72 of `calc_rates`, with `_dev_rate_fruit`
applied to its two declared parameters: one rate per existing `DVSF` entry,
in the same nested arrangement.  (The extra `self` argument of the actual
bound call is modelled in `calc_rates` itself.) -/
noncomputable def dvrfMap (drvTEMP : ℝ) (DVSF : List (List ℝ)) :
    Except PyErr (List (List ℝ)) :=
  DVSF.mapM (fun (row : List ℝ) => row.mapM (fun x =>
    dev_rate_fruit [PyVal.num drvTEMP, PyVal.num x]))

/-- Modelled from the spec: the plant-rate closed form
`DVR = a + 0.1454*ln(T) - 0.001*DVS` with cultivar constant `a`
(reference value -0.286). -/
noncomputable def DVR_spec (a T DVS : ℝ) : ℝ := a + 0.1454 * Real.log T - 0.001 * DVS

/-- Modelled from the spec: the fruit-rate closed form
`DVRF = 0.0181 + ln(T/20)*(0.0392 - 0.213*x + 0.415*x^2 - 0.24*x^3)`. -/
noncomputable def DVRF_spec (T x : ℝ) : ℝ :=
  0.0181 + Real.log (T / 20) * (0.0392 - 0.213 * x + 0.415 * x ^ 2 - 0.24 * x ^ 3)

/-- Two-level lookup into a nested list, `l[i][j]` as a total function. -/
def get2? {α : Type} (l : List (List α)) (i j : ℕ) : Option α :=
  l[i]?.bind fun row => row[j]?

/-- Python `int()` applied to a float: truncation toward zero. -/
noncomputable def pyInt (x : ℝ) : ℤ := if 0 ≤ x then ⌊x⌋ else ⌈x⌉

/-- Lines 131-136 of `integrate`: the number of currently emerging leaves,
decided by the fractional part `s.DVS % 1`. -/
noncomputable def nLEAF_of (DVS : ℝ) : ℕ :=
  if 2 / 3 ≤ Int.fract DVS then 3
  else if 1 / 3 ≤ Int.fract DVS then 2
  else 1

/-- Lines 119-124 of `integrate`: scan the slots of a list in order and set
the first unset one to the current day (`break`); if every slot is set,
nothing changes.  Applied to the tail of a DOEF row, i.e. to slots 1, 2, .. -/
def setFirstUnset (day : ℕ) : List (Option ℕ) → List (Option ℕ)
  | [] => []
  | Option.none :: t => some day :: t
  | some v :: t => some v :: setFirstUnset day t

/-- Lines 117-129, the body of the truss loop at index `i`, acting on the
pair `(DOEF, DOEL)`: if `DOEF[i][0]` is set, advance the first unset later
flower slot of truss `i`; otherwise set `DOEF[i][0]` and, if unset, also
`DOEL[i+3][0]`.  Reading a missing row or the head of an empty row raises
IndexError, keeping the mutations made so far. -/
def anthesisBody (day i : ℕ) (p : LL × LL) : (LL × LL) × Option PyErr :=
  match p.1[i]? with
  | Option.none => (p, some PyErr.indexError)
  | some [] => (p, some PyErr.indexError)
  | some (some v :: t) =>
      ((p.1.set i (some v :: setFirstUnset day t), p.2), Option.none)
  | some (Option.none :: t) =>
      let DOEF1 := p.1.set i (some day :: t)
      match p.2[i + 3]? with
      | Option.none => ((DOEF1, p.2), some PyErr.indexError)
      | some [] => ((DOEF1, p.2), some PyErr.indexError)
      | some (Option.none :: t3) =>
          ((DOEF1, p.2.set (i + 3) (some day :: t3)), Option.none)
      | some (some _ :: _) => ((DOEF1, p.2), Option.none)

/-- Lines 116-129: `for i in range(0, int(s.DVS))`, iterating `i` upward
with `fuel` iterations remaining; an error aborts the loop and keeps the
mutations made so far. -/
def anthesisLoop (day : ℕ) : ℕ → ℕ → LL × LL → (LL × LL) × Option PyErr
  | _, 0, p => (p, Option.none)
  | i, fuel + 1, p =>
      match anthesisBody day i p with
      | (p1, Option.none) => anthesisLoop day (i + 1) fuel p1
      | (p1, some e) => (p1, some e)

/-- Lines 138-140, the slot loop on one DOEL row: for `fuel` successive
slots starting at `j`, set each unset slot to the current day; reading past
the end of the row raises IndexError. -/
def backfillRow (day : ℕ) : ℕ → ℕ → List (Option ℕ) → List (Option ℕ) × Option PyErr
  | _, 0, row => (row, Option.none)
  | j, fuel + 1, row =>
      match row[j]? with
      | Option.none => (row, some PyErr.indexError)
      | some Option.none => backfillRow day (j + 1) fuel (row.set j (some day))
      | some (some _) => backfillRow day (j + 1) fuel row

/-- Lines 137-140: `for i in range(0, int(s.DVS+2))`, back-filling the
three leaf slots of every DOEL row up to that bound. -/
def backfillLoop (day : ℕ) : ℕ → ℕ → LL → LL × Option PyErr
  | _, 0, DOEL => (DOEL, Option.none)
  | i, fuel + 1, DOEL =>
      match DOEL[i]? with
      | Option.none => (DOEL, some PyErr.indexError)
      | some row =>
          match backfillRow day 0 3 row with
          | (row1, Option.none) => backfillLoop day (i + 1) fuel (DOEL.set i row1)
          | (row1, some e) => (DOEL.set i row1, some e)

/-- Line 103 of `integrate`: `DVSF` is combined with `DVRF` by Python
`map` over two lists of `zip`-ped rows; both `map` with several iterables
and `zip` stop at the shorter operand, so mismatched shapes are silently
truncated rather than rejected. -/
def commitDVSF (DVSF DVRF : List (List ℝ)) : List (List ℝ) :=
  List.zipWith (fun l1 l2 => List.zipWith (fun a b => a + b) l1 l2) DVSF DVRF

/-- Lines 94-150, one `integrate` step.  The result is the state as mutated
so far, paired with the error raised, if any.  After the back-fill loop,
line 141 computes `i = s.DVS + 3` -- a Python float -- and line 142
subscripts the list `s.DOEL` with it, which raises TypeError
unconditionally (list indices must be integers), so the conditional
assignments of lines 142-147 are never executed. -/
noncomputable def integrate (day : ℕ) (r : PhenoRates) (s : PhenoState) :
    PhenoState × Option PyErr :=
  let DVS1 := s.DVS + r.DVR
  let DVSF1 := commitDVSF s.DVSF r.DVRF
  let a := anthesisLoop day 0 (pyInt DVS1).toNat (s.DOEF, s.DOEL)
  match a.2 with
  | some e => ({ s with DVS := DVS1, DVSF := DVSF1, DOEF := a.1.1, DOEL := a.1.2 }, some e)
  | Option.none =>
      let _nL := nLEAF_of DVS1
      let b := backfillLoop day 0 (pyInt (DVS1 + 2)).toNat a.1.2
      match b.2 with
      | some e => ({ s with DVS := DVS1, DVSF := DVSF1, DOEF := a.1.1, DOEL := b.1 }, some e)
      | Option.none =>
          let _i : ℝ := DVS1 + 3
          ({ s with DVS := DVS1, DVSF := DVSF1, DOEF := a.1.1, DOEL := b.1 },
            some PyErr.typeError)

/-- Lines 152-158, `_on_CROP_FINISH`: record the current day into the `DOH`
slot of the finalize dictionary when the finish tag is `harvest` or
`earliest`; any other tag (including no tag) changes nothing. -/
def on_CROP_FINISH (day : ℕ) (finish_type : Option String) (DOH : Option ℕ) : Option ℕ :=
  if finish_type = some "harvest" ∨ finish_type = some "earliest" then some day else DOH

/-- A nested container has a nonempty row at index `m`: the capacity
condition under which reading `x[m][0]` cannot raise IndexError. -/
def hasRow (x : LL) (m : ℕ) : Prop := ∃ row, x[m]? = some row ∧ row ≠ []

/-- Concrete DOEL container of four fully-unset three-slot rows. -/
def emptyDOEL4 : LL :=
  [[Option.none, Option.none, Option.none], [Option.none, Option.none, Option.none],
   [Option.none, Option.none, Option.none], [Option.none, Option.none, Option.none]]

/-- Concrete integrate input: initial stage `0`, no trusses, empty DOEF. -/
def C4s : PhenoState := ⟨0, [], emptyDOEL4, [], []⟩

/-- Concrete rates for the `C4s` run: plant rate one half. -/
noncomputable def C4r : PhenoRates := ⟨1 / 2, []⟩

/-- Concrete integrate input: stage one half, one truss with one unset
flower slot. -/
noncomputable def C6s : PhenoState := ⟨1 / 2, [], emptyDOEL4, [[Option.none]], []⟩

/-- Concrete rates for the `C6s` run: plant rate one. -/
def C6r : PhenoRates := ⟨1, []⟩

/-- Claim C1: through the public entry point, rate calculation always fails
with a Python TypeError -- the helpers are defined with two parameters but
invoked as bound methods, so each call receives the instance as an extra
first argument -- and therefore no rate value is ever produced. -/
theorem claim_C1 (day : ℕ) (drvTEMP : ℝ) (s : PhenoState) :
    calc_rates day drvTEMP s = Except.error PyErr.typeError := rfl

/-- Claim C2: for every temperature `T > 0` and every stage `DVS`, the plant
development rate computed by `_dev_rate_plant` from its two declared
parameters is the spec's closed form with cultivar constant `a = -0.286`. -/
theorem claim_C2 (T DVS : ℝ) (hT : 0 < T) :
    dev_rate_plant [PyVal.num T, PyVal.num DVS] = Except.ok (DVR_spec (-0.286) T DVS) := by
  simp only [dev_rate_plant, DVR_spec]
  rw [if_neg (not_le.mpr hT)]

/-- Witness for C2 at `T = 1`, `DVS = 2`. -/
theorem claim_C2_witness :
    (0 : ℝ) < 1 ∧
      dev_rate_plant [PyVal.num 1, PyVal.num 2] = Except.ok (DVR_spec (-0.286) 1 2) :=
  ⟨by norm_num, claim_C2 1 2 (by norm_num)⟩

/-- Helper: a monadic map over `Except` whose function succeeds pointwise
succeeds with the pointwise results. -/
theorem mapM_ok_of_forall {α β : Type} (f : α → Except PyErr β) (g : α → β) :
    ∀ l : List α, (∀ x ∈ l, f x = Except.ok (g x)) → l.mapM f = Except.ok (l.map g)
  | [], _ => rfl
  | a :: l, h => by
    rw [List.mapM_cons, h a (List.mem_cons_self a l),
      mapM_ok_of_forall f g l (fun x hx => h x (List.mem_cons_of_mem a hx))]
    rfl

/-- Helper: `_dev_rate_fruit` on its declared parameters with `T > 0`
returns the spec's cubic closed form. -/
theorem dev_rate_fruit_ok (T x : ℝ) (hT : 0 < T) :
    dev_rate_fruit [PyVal.num T, PyVal.num x] = Except.ok (DVRF_spec T x) := by
  simp only [dev_rate_fruit, DVRF_spec]
  rw [if_neg (not_le.mpr (div_pos hT (by norm_num)))]

/-- Claim C3: for `T > 0`, the elementwise fruit-rate map succeeds, its
output has exactly the nested shape of `DVSF`, and each entry is the spec's
cubic closed form of the corresponding `DVSF` entry. -/
theorem claim_C3 (T : ℝ) (hT : 0 < T) (DVSF : List (List ℝ)) :
    ∃ M, dvrfMap T DVSF = Except.ok M ∧
      M.length = DVSF.length ∧
      (∀ i : ℕ, (M[i]?).map List.length = (DVSF[i]?).map List.length) ∧
      (∀ i j x, get2? DVSF i j = some x → get2? M i j = some (DVRF_spec T x)) := by
  refine ⟨DVSF.map (fun row => row.map (DVRF_spec T)), ?_, List.length_map DVSF _, ?_, ?_⟩
  · exact mapM_ok_of_forall _ _ DVSF
      (fun row _ => mapM_ok_of_forall _ _ row (fun x _ => dev_rate_fruit_ok T x hT))
  · intro i
    rw [List.getElem?_map]
    cases DVSF[i]? <;> simp
  · intro i j x h
    unfold get2? at h ⊢
    rw [List.getElem?_map]
    cases hrow : DVSF[i]? with
    | none => rw [hrow] at h; simp at h
    | some row =>
        rw [hrow] at h
        simp only [Option.some_bind] at h
        simp [List.getElem?_map, h]

/-- Witness for C3 at `T = 20` and a single fruit at stage `0`. -/
theorem claim_C3_witness :
    (0 : ℝ) < 20 ∧
      ∃ M, dvrfMap 20 [[0]] = Except.ok M ∧
        M.length = ([[0]] : List (List ℝ)).length ∧
        (∀ i : ℕ, (M[i]?).map List.length = (([[0]] : List (List ℝ))[i]?).map List.length) ∧
        (∀ i j x, get2? ([[0]] : List (List ℝ)) i j = some x →
          get2? M i j = some (DVRF_spec 20 x)) :=
  ⟨by norm_num, claim_C3 20 (by norm_num) [[0]]⟩

/-- Claim C8 (code bug): at the non-positive temperature `T = -1` the entry
point `calc_rates` raises TypeError from the bound-method arity bug before
the logarithm is ever reached, not the claimed InvalidInput/ValueError;
`_dev_rate_plant` applied to its two declared parameters would indeed raise
ValueError there.  The state is not touched either way. -/
theorem claim_C8 :
    calc_rates 0 (-1) ⟨0, [], [], [], []⟩ = Except.error PyErr.typeError ∧
    PyErr.typeError ≠ PyErr.valueError ∧
    dev_rate_plant [PyVal.num (-1), PyVal.num 0] = Except.error PyErr.valueError := by
  refine ⟨rfl, by decide, ?_⟩
  simp only [dev_rate_plant]
  rw [if_pos (by norm_num)]

/-- Counterexample for C9: a second finish notification with tag `harvest`
on day 5, arriving after `DOH` was already recorded as day 3, overwrites
`DOH` instead of being an idempotent no-op. -/
theorem claim_C9_cex :
    on_CROP_FINISH 5 (some "harvest") (some 3) = some 5 ∧
    (some 5 : Option ℕ) ≠ some 3 := by
  constructor
  · simp [on_CROP_FINISH]
  · simp

/-- Claim C9 (amended): a `harvest` or `earliest` tag records the current
day into `DOH`, overwriting any previously recorded value; any other tag
(including no tag) changes nothing; re-invoking the handler is a no-op only
when it carries the same day, since the handler keeps no finished flag. -/
theorem claim_C9 (day : ℕ) (t : Option String) (DOH : Option ℕ) :
    ((t = some "harvest" ∨ t = some "earliest") → on_CROP_FINISH day t DOH = some day) ∧
    (¬(t = some "harvest" ∨ t = some "earliest") → on_CROP_FINISH day t DOH = DOH) ∧
    on_CROP_FINISH day t (on_CROP_FINISH day t DOH) = on_CROP_FINISH day t DOH := by
  refine ⟨fun h => if_pos h, fun h => if_neg h, ?_⟩
  by_cases h : t = some "harvest" ∨ t = some "earliest" <;> simp [on_CROP_FINISH, h]

/-- Witness for C9 at tag `earliest`, day 4, unset `DOH`. -/
theorem claim_C9_witness :
    ((some "earliest" : Option String) = some "harvest" ∨
      (some "earliest" : Option String) = some "earliest") ∧
    on_CROP_FINISH 4 (some "earliest") Option.none = some 4 :=
  ⟨Or.inr rfl, (claim_C9 4 (some "earliest") Option.none).1 (Or.inr rfl)⟩

/-- Claim C10: for `DVS >= 0`, `nLEAF` is decided solely by the fractional
part `f = DVS mod 1`: `3` when `f >= 2/3`, `2` when `1/3 <= f < 2/3`, and
`1` otherwise. -/
theorem claim_C10 (DVS : ℝ) (h0 : 0 ≤ DVS) :
    nLEAF_of DVS = nLEAF_of (Int.fract DVS) ∧
    (2 / 3 ≤ Int.fract DVS → nLEAF_of DVS = 3) ∧
    (1 / 3 ≤ Int.fract DVS → Int.fract DVS < 2 / 3 → nLEAF_of DVS = 2) ∧
    (Int.fract DVS < 1 / 3 → nLEAF_of DVS = 1) := by
  refine ⟨by simp [nLEAF_of, Int.fract_fract], fun h => ?_, fun h1 h2 => ?_, fun h => ?_⟩
  · simp [nLEAF_of, if_pos h]
  · simp only [nLEAF_of]
    rw [if_neg (by linarith), if_pos h1]
  · simp only [nLEAF_of]
    rw [if_neg (by linarith), if_neg (by linarith)]

/-- Witness for C10 at `DVS = 0.34`, whose fractional part is `0.34`. -/
theorem claim_C10_witness : (0 : ℝ) ≤ 0.34 ∧ nLEAF_of 0.34 = 2 := by
  have hf : Int.fract (0.34 : ℝ) = 0.34 := Int.fract_eq_self.mpr ⟨by norm_num, by norm_num⟩
  refine ⟨by norm_num, (claim_C10 0.34 (by norm_num)).2.2.1 ?_ ?_⟩ <;> rw [hf] <;> norm_num

/-- Helper: `setFirstUnset` leaves every already-set slot unchanged. -/
theorem setFirstUnset_pres_some (d : ℕ) :
    ∀ (row : List (Option ℕ)) (j w : ℕ), row[j]? = some (some w) →
      (setFirstUnset d row)[j]? = some (some w)
  | [], j, w, h => by simp at h
  | Option.none :: t, 0, w, h => by simp at h
  | Option.none :: t, j + 1, w, h => by simpa [setFirstUnset] using h
  | some v :: t, 0, w, h => by simpa [setFirstUnset] using h
  | some v :: t, j + 1, w, h => by
      simpa [setFirstUnset] using setFirstUnset_pres_some d t j w (by simpa using h)

/-- Helper: `setFirstUnset` sets the first unset slot to the day. -/
theorem setFirstUnset_first (d : ℕ) :
    ∀ (row : List (Option ℕ)) (j : ℕ), row[j]? = some Option.none →
      (∀ k, k < j → row[k]? ≠ some Option.none) →
      (setFirstUnset d row)[j]? = some (some d)
  | [], j, h, _ => by simp at h
  | Option.none :: t, 0, _, _ => by simp [setFirstUnset]
  | Option.none :: t, j + 1, h, hk =>
      (hk 0 (Nat.succ_pos j) List.getElem?_cons_zero).elim
  | some v :: t, 0, h, _ => by simp at h
  | some v :: t, j + 1, h, hk => by
      simpa [setFirstUnset] using
        setFirstUnset_first d t j (by simpa using h)
          (fun k hlt => by simpa using hk (k + 1) (by omega))

/-- Helper: slots after an unset slot are unchanged by `setFirstUnset`
(the scan breaks at the first unset slot). -/
theorem setFirstUnset_after (d : ℕ) :
    ∀ (row : List (Option ℕ)) (j0 j : ℕ), j0 < j → row[j0]? = some Option.none →
      (setFirstUnset d row)[j]? = row[j]?
  | [], j0, j, _, h => by simp at h
  | Option.none :: t, j0, 0, hlt, _ => by omega
  | Option.none :: t, j0, j + 1, _, _ => by simp [setFirstUnset]
  | some v :: t, 0, j, _, h => by simp at h
  | some v :: t, j0 + 1, 0, hlt, _ => by omega
  | some v :: t, j0 + 1, j + 1, hlt, h => by
      simpa [setFirstUnset] using
        setFirstUnset_after d t j0 j (by omega) (by simpa using h)

/-- Helper: `setFirstUnset` preserves the row length. -/
theorem setFirstUnset_length (d : ℕ) :
    ∀ row : List (Option ℕ), (setFirstUnset d row).length = row.length
  | [] => rfl
  | Option.none :: _ => rfl
  | some v :: t => by simp [setFirstUnset, setFirstUnset_length d t]

/-- Helper: setting an index to a row of the same length leaves the
length profile of a nested container unchanged. -/
theorem set_shape (x : LL) (i : ℕ) (row : List (Option ℕ)) (m : ℕ)
    (h : (x[i]?).map List.length = some row.length) :
    ((x.set i row)[m]?).map List.length = (x[m]?).map List.length := by
  rcases eq_or_ne i m with rfl | hne
  · cases hx : x[i]? with
    | none => rw [hx] at h; simp at h
    | some r =>
        have hlen : i < x.length := (List.getElem?_eq_some.mp hx).1
        rw [List.getElem?_set_eq_of_lt _ hlen]
        rw [hx] at h
        simpa using h.symm
  · rw [List.getElem?_set_ne hne]

/-- Helper: the truss-loop body preserves both container lengths and the
length of every row. -/
theorem anthesisBody_shape (d i : ℕ) (p : LL × LL) (m : ℕ) :
    ((anthesisBody d i p).1.1[m]?).map List.length = (p.1[m]?).map List.length ∧
    ((anthesisBody d i p).1.2[m]?).map List.length = (p.2[m]?).map List.length := by
  cases h1 : p.1[i]? with
  | none => simp [anthesisBody, h1]
  | some row =>
    cases row with
    | nil => simp [anthesisBody, h1]
    | cons a t =>
      cases a with
      | some v =>
        refine ⟨?_, by simp [anthesisBody, h1]⟩
        have hset := set_shape p.1 i (some v :: setFirstUnset d t) m
          (by rw [h1]; simp [setFirstUnset_length])
        simpa [anthesisBody, h1] using hset
      | none =>
        have hsetF := set_shape p.1 i (some d :: t) m (by rw [h1]; simp)
        cases h2 : p.2[i + 3]? with
        | none => exact ⟨by simpa [anthesisBody, h1, h2] using hsetF,
            by simp [anthesisBody, h1, h2]⟩
        | some row3 =>
          cases row3 with
          | nil => exact ⟨by simpa [anthesisBody, h1, h2] using hsetF,
              by simp [anthesisBody, h1, h2]⟩
          | cons b t3 =>
            cases b with
            | none =>
                refine ⟨by simpa [anthesisBody, h1, h2] using hsetF, ?_⟩
                have hsetL := set_shape p.2 (i + 3) (some d :: t3) m (by rw [h2]; simp)
                simpa [anthesisBody, h1, h2] using hsetL
            | some w => exact ⟨by simpa [anthesisBody, h1, h2] using hsetF,
                by simp [anthesisBody, h1, h2]⟩

/-- Helper: a container keeps a nonempty row at `m` whenever its length
profile at `m` is unchanged. -/
theorem hasRow_of_shape {x y : LL} (m : ℕ)
    (h : (y[m]?).map List.length = (x[m]?).map List.length)
    (hx : hasRow x m) : hasRow y m := by
  obtain ⟨row, hr, hne⟩ := hx
  rw [hr] at h
  cases hy : y[m]? with
  | none => rw [hy] at h; simp at h
  | some r =>
      rw [hy] at h
      have hlen : r.length = row.length := by simpa using h
      refine ⟨r, hy, fun hnil => hne ?_⟩
      apply List.eq_nil_of_length_eq_zero
      rw [← hlen, hnil]
      rfl

/-- Helper: an entry update at one index preserves every already-set entry
of a nested container, provided the new row preserves set entries. -/
theorem set_pres_get2? (x : LL) (i : ℕ) (oldrow newrow : List (Option ℕ)) (m j w : ℕ)
    (hx : x[i]? = some oldrow)
    (hrow : ∀ (j w : ℕ), oldrow[j]? = some (some w) → newrow[j]? = some (some w)) :
    get2? x m j = some (some w) → get2? (x.set i newrow) m j = some (some w) := by
  intro h
  unfold get2? at h ⊢
  rcases eq_or_ne i m with rfl | hne
  · rw [hx, Option.some_bind] at h
    rw [List.getElem?_set_eq_of_lt _ (List.getElem?_eq_some.mp hx).1, Option.some_bind]
    exact hrow j w h
  · rw [List.getElem?_set_ne hne]
    exact h

/-- Helper: the truss-loop body never clears or overwrites a set entry of
either container. -/
theorem anthesisBody_pres (d i : ℕ) (p : LL × LL) (m j w : ℕ) :
    (get2? p.1 m j = some (some w) → get2? (anthesisBody d i p).1.1 m j = some (some w)) ∧
    (get2? p.2 m j = some (some w) → get2? (anthesisBody d i p).1.2 m j = some (some w)) := by
  cases h1 : p.1[i]? with
  | none => simp [anthesisBody, h1]
  | some row =>
    cases row with
    | nil => simp [anthesisBody, h1]
    | cons a t =>
      cases a with
      | some v =>
        refine ⟨?_, by simp [anthesisBody, h1]⟩
        intro h
        have := set_pres_get2? p.1 i (some v :: t) (some v :: setFirstUnset d t) m j w h1
          (fun j w hj => by
            cases j with
            | zero => simpa using hj
            | succ j => simpa using setFirstUnset_pres_some d t j w (by simpa using hj)) h
        simpa [anthesisBody, h1] using this
      | none =>
        have hDOEF : ∀ h : get2? p.1 m j = some (some w),
            get2? (p.1.set i (some d :: t)) m j = some (some w) :=
          set_pres_get2? p.1 i (Option.none :: t) (some d :: t) m j w h1
            (fun j w hj => by
              cases j with
              | zero => simp at hj
              | succ j => simpa using hj)
        cases h2 : p.2[i + 3]? with
        | none => exact ⟨fun h => by simpa [anthesisBody, h1, h2] using hDOEF h,
            by simp [anthesisBody, h1, h2]⟩
        | some row3 =>
          cases row3 with
          | nil => exact ⟨fun h => by simpa [anthesisBody, h1, h2] using hDOEF h,
              by simp [anthesisBody, h1, h2]⟩
          | cons b t3 =>
            cases b with
            | none =>
                refine ⟨fun h => by simpa [anthesisBody, h1, h2] using hDOEF h, fun h => ?_⟩
                have := set_pres_get2? p.2 (i + 3) (Option.none :: t3) (some d :: t3) m j w h2
                  (fun j w hj => by
                    cases j with
                    | zero => simp at hj
                    | succ j => simpa using hj) h
                simpa [anthesisBody, h1, h2] using this
            | some u => exact ⟨fun h => by simpa [anthesisBody, h1, h2] using hDOEF h,
                by simp [anthesisBody, h1, h2]⟩

/-- Helper: the truss-loop body touches only DOEF row `i` and DOEL row
`i + 3`. -/
theorem anthesisBody_frame (d i : ℕ) (p : LL × LL) (m : ℕ) :
    (m ≠ i → (anthesisBody d i p).1.1[m]? = p.1[m]?) ∧
    (m ≠ i + 3 → (anthesisBody d i p).1.2[m]? = p.2[m]?) := by
  cases h1 : p.1[i]? with
  | none => simp [anthesisBody, h1]
  | some row =>
    cases row with
    | nil => simp [anthesisBody, h1]
    | cons a t =>
      cases a with
      | some v =>
        exact ⟨fun hm => by
          simp [anthesisBody, h1, List.getElem?_set_ne (Ne.symm hm)],
          by simp [anthesisBody, h1]⟩
      | none =>
        cases h2 : p.2[i + 3]? with
        | none => exact ⟨fun hm => by
            simp [anthesisBody, h1, h2, List.getElem?_set_ne (Ne.symm hm)],
            by simp [anthesisBody, h1, h2]⟩
        | some row3 =>
          cases row3 with
          | nil => exact ⟨fun hm => by
              simp [anthesisBody, h1, h2, List.getElem?_set_ne (Ne.symm hm)],
              by simp [anthesisBody, h1, h2]⟩
          | cons b t3 =>
            cases b with
            | none => exact ⟨fun hm => by
                simp [anthesisBody, h1, h2, List.getElem?_set_ne (Ne.symm hm)],
                fun hm => by
                simp [anthesisBody, h1, h2, List.getElem?_set_ne (Ne.symm hm)]⟩
            | some u => exact ⟨fun hm => by
                simp [anthesisBody, h1, h2, List.getElem?_set_ne (Ne.symm hm)],
                by simp [anthesisBody, h1, h2]⟩

/-- Helper: with a nonempty DOEF row at `i` and a nonempty DOEL row at
`i + 3`, the truss-loop body raises no IndexError. -/
theorem anthesisBody_ok (d i : ℕ) (p : LL × LL)
    (h1 : hasRow p.1 i) (h2 : hasRow p.2 (i + 3)) :
    (anthesisBody d i p).2 = Option.none := by
  obtain ⟨row, hr, hne⟩ := h1
  obtain ⟨row3, hr3, hne3⟩ := h2
  cases row with
  | nil => exact (hne rfl).elim
  | cons a t =>
    cases a with
    | some v => simp [anthesisBody, hr]
    | none =>
      cases row3 with
      | nil => exact (hne3 rfl).elim
      | cons b t3 =>
        cases b with
        | none => simp [anthesisBody, hr, hr3]
        | some u => simp [anthesisBody, hr, hr3]

/-- Helper: exact effect of the truss-loop body on a truss whose first
flower slot is already set. -/
theorem anthesisBody_char_started (d i : ℕ) (p : LL × LL) (v : ℕ) (t : List (Option ℕ))
    (h : p.1[i]? = some (some v :: t)) :
    (anthesisBody d i p).1.1 = p.1.set i (some v :: setFirstUnset d t) ∧
    (anthesisBody d i p).1.2 = p.2 := by
  constructor <;> simp [anthesisBody, h]

/-- Helper: exact effect of the truss-loop body on a truss whose first
flower slot is unset. -/
theorem anthesisBody_char_unstarted (d i : ℕ) (p : LL × LL) (t : List (Option ℕ))
    (h : p.1[i]? = some (Option.none :: t)) :
    (anthesisBody d i p).1.1 = p.1.set i (some d :: t) ∧
    (∀ t3, p.2[i + 3]? = some (Option.none :: t3) →
      (anthesisBody d i p).1.2 = p.2.set (i + 3) (some d :: t3)) := by
  constructor
  · cases h2 : p.2[i + 3]? with
    | none => simp [anthesisBody, h, h2]
    | some row3 =>
      cases row3 with
      | nil => simp [anthesisBody, h, h2]
      | cons b t3 =>
        cases b with
        | none => simp [anthesisBody, h, h2]
        | some u => simp [anthesisBody, h, h2]
  · intro t3 h3
    simp [anthesisBody, h, h3]

/-- Helper: the back-fill slot loop never clears or overwrites a set
slot. -/
theorem backfillRow_pres (d : ℕ) :
    ∀ (k j : ℕ) (row : List (Option ℕ)) (m w : ℕ),
      row[m]? = some (some w) → ((backfillRow d j k row).1)[m]? = some (some w)
  | 0, _, _, _, _, h => h
  | k + 1, j, row, m, w, h => by
      cases hj : row[j]? with
      | none => simpa [backfillRow, hj] using h
      | some a =>
        cases a with
        | some u => simpa [backfillRow, hj] using backfillRow_pres d k (j + 1) row m w h
        | none =>
            have hmj : m ≠ j := by
              rintro rfl
              rw [h] at hj
              simp at hj
            have h' : (row.set j (some d))[m]? = some (some w) := by
              rw [List.getElem?_set_ne (Ne.symm hmj)]
              exact h
            simpa [backfillRow, hj] using
              backfillRow_pres d k (j + 1) (row.set j (some d)) m w h'

/-- Helper: the back-fill loop never clears or overwrites a set entry. -/
theorem backfillLoop_pres (d : ℕ) :
    ∀ (k i : ℕ) (L : LL) (m j w : ℕ),
      get2? L m j = some (some w) → get2? (backfillLoop d i k L).1 m j = some (some w)
  | 0, _, _, _, _, _, h => h
  | k + 1, i, L, m, j, w, h => by
      cases hi : L[i]? with
      | none => simpa [backfillLoop, hi] using h
      | some row =>
        rcases hbr : backfillRow d 0 3 row with ⟨row1, e⟩
        have hpres : get2? (L.set i row1) m j = some (some w) := by
          refine set_pres_get2? L i row row1 m j w hi (fun j w hj => ?_) h
          have := backfillRow_pres d 3 0 row j w hj
          rwa [hbr] at this
        cases e with
        | none => simpa [backfillLoop, hi, hbr] using
            backfillLoop_pres d k (i + 1) (L.set i row1) m j w hpres
        | some e' => simpa [backfillLoop, hi, hbr] using hpres

/-- Helper: the truss loop never clears or overwrites a set entry of
either container, whether or not it aborts with an error. -/
theorem anthesisLoop_pres (d k : ℕ) :
    ∀ (i : ℕ) (p : LL × LL) (m j w : ℕ),
      (get2? p.1 m j = some (some w) →
        get2? (anthesisLoop d i k p).1.1 m j = some (some w)) ∧
      (get2? p.2 m j = some (some w) →
        get2? (anthesisLoop d i k p).1.2 m j = some (some w)) := by
  induction k with
  | zero => intro i p m j w; exact ⟨fun h => by simpa [anthesisLoop] using h,
      fun h => by simpa [anthesisLoop] using h⟩
  | succ k ih =>
    intro i p m j w
    rcases hb : anthesisBody d i p with ⟨p1, e⟩
    have hpres := anthesisBody_pres d i p m j w
    rw [hb] at hpres
    cases e with
    | none =>
        exact ⟨fun h => by
            simpa [anthesisLoop, hb] using (ih (i + 1) p1 m j w).1 (hpres.1 h),
          fun h => by
            simpa [anthesisLoop, hb] using (ih (i + 1) p1 m j w).2 (hpres.2 h)⟩
    | some e' =>
        exact ⟨fun h => by simpa [anthesisLoop, hb] using hpres.1 h,
          fun h => by simpa [anthesisLoop, hb] using hpres.2 h⟩

/-- Helper: the truss loop running from index `i` leaves DOEF rows below
`i` and DOEL rows below `i + 3` untouched. -/
theorem anthesisLoop_frame (d k : ℕ) :
    ∀ (i : ℕ) (p : LL × LL) (m : ℕ),
      (m < i → (anthesisLoop d i k p).1.1[m]? = p.1[m]?) ∧
      (m < i + 3 → (anthesisLoop d i k p).1.2[m]? = p.2[m]?) := by
  induction k with
  | zero => intro i p m; constructor <;> intro h <;> simp [anthesisLoop]
  | succ k ih =>
    intro i p m
    rcases hb : anthesisBody d i p with ⟨p1, e⟩
    have hfr := anthesisBody_frame d i p m
    rw [hb] at hfr
    cases e with
    | none =>
        constructor
        · intro h
          have h1 := (ih (i + 1) p1 m).1 (by omega)
          rw [hfr.1 (by omega)] at h1
          simpa [anthesisLoop, hb] using h1
        · intro h
          have h1 := (ih (i + 1) p1 m).2 (by omega)
          rw [hfr.2 (by omega)] at h1
          simpa [anthesisLoop, hb] using h1
    | some e' =>
        exact ⟨fun h => by simpa [anthesisLoop, hb] using hfr.1 (by omega),
          fun h => by simpa [anthesisLoop, hb] using hfr.2 (by omega)⟩

/-- Helper: with nonempty DOEF rows on the whole range and nonempty DOEL
rows three positions ahead, the truss loop raises no error. -/
theorem anthesisLoop_ok (d k : ℕ) :
    ∀ (i : ℕ) (p : LL × LL),
      (∀ m, i ≤ m → m < i + k → hasRow p.1 m) →
      (∀ m, i ≤ m → m < i + k → hasRow p.2 (m + 3)) →
      (anthesisLoop d i k p).2 = Option.none := by
  induction k with
  | zero => intro i p _ _; simp [anthesisLoop]
  | succ k ih =>
    intro i p hF hL
    rcases hb : anthesisBody d i p with ⟨p1, e⟩
    have hok := anthesisBody_ok d i p (hF i le_rfl (by omega)) (hL i le_rfl (by omega))
    rw [hb] at hok
    simp only at hok
    subst hok
    have hsh := fun m => anthesisBody_shape d i p m
    have hF1 : ∀ m, i + 1 ≤ m → m < i + 1 + k → hasRow p1.1 m := by
      intro m hm1 hm2
      have := (hsh m).1
      rw [hb] at this
      exact hasRow_of_shape m this (hF m (by omega) (by omega))
    have hL1 : ∀ m, i + 1 ≤ m → m < i + 1 + k → hasRow p1.2 (m + 3) := by
      intro m hm1 hm2
      have := (hsh (m + 3)).2
      rw [hb] at this
      exact hasRow_of_shape (m + 3) this (hL m (by omega) (by omega))
    simpa [anthesisLoop, hb] using ih (i + 1) p1 hF1 hL1

/-- Helper: exact effect of the truss loop on row `i0` of DOEF and row
`i0 + 3` of DOEL, for any `i0` inside the processed range, under the
capacity conditions. -/
theorem anthesisLoop_char (d k : ℕ) :
    ∀ (i : ℕ) (p : LL × LL) (i0 : ℕ), i ≤ i0 → i0 < i + k →
      (∀ m, i ≤ m → m < i + k → hasRow p.1 m) →
      (∀ m, i ≤ m → m < i + k → hasRow p.2 (m + 3)) →
      (∀ (v : ℕ) (t : List (Option ℕ)), p.1[i0]? = some (some v :: t) →
        (anthesisLoop d i k p).1.1[i0]? = some (some v :: setFirstUnset d t)) ∧
      (∀ t : List (Option ℕ), p.1[i0]? = some (Option.none :: t) →
        (anthesisLoop d i k p).1.1[i0]? = some (some d :: t) ∧
        ∀ t3 : List (Option ℕ), p.2[i0 + 3]? = some (Option.none :: t3) →
          (anthesisLoop d i k p).1.2[i0 + 3]? = some (some d :: t3)) := by
  induction k with
  | zero => intro i p i0 h1 h2 _ _; omega
  | succ k ih =>
    intro i p i0 hle hlt hF hL
    rcases hb : anthesisBody d i p with ⟨p1, e⟩
    have hok := anthesisBody_ok d i p (hF i le_rfl (by omega)) (hL i le_rfl (by omega))
    rw [hb] at hok
    simp only at hok
    subst hok
    have hloop : anthesisLoop d i (k + 1) p = anthesisLoop d (i + 1) k p1 := by
      simp [anthesisLoop, hb]
    rcases eq_or_ne i0 i with rfl | hne
    · constructor
      · intro v t hrow
        have hchar := anthesisBody_char_started d i0 p v t hrow
        rw [hb] at hchar
        have hfr := (anthesisLoop_frame d k (i0 + 1) p1 i0).1 (by omega)
        rw [hloop, hfr, hchar.1,
          List.getElem?_set_eq_of_lt _ (List.getElem?_eq_some.mp hrow).1]
      · intro t hrow
        have hchar := anthesisBody_char_unstarted d i0 p t hrow
        rw [hb] at hchar
        constructor
        · have hfr := (anthesisLoop_frame d k (i0 + 1) p1 i0).1 (by omega)
          rw [hloop, hfr, hchar.1,
            List.getElem?_set_eq_of_lt _ (List.getElem?_eq_some.mp hrow).1]
        · intro t3 hrow3
          have h2 := hchar.2 t3 hrow3
          have hfr := (anthesisLoop_frame d k (i0 + 1) p1 (i0 + 3)).2 (by omega)
          rw [hloop, hfr, h2,
            List.getElem?_set_eq_of_lt _ (List.getElem?_eq_some.mp hrow3).1]
    · have hfr := anthesisBody_frame d i p
      have hfrF : p1.1[i0]? = p.1[i0]? := by
        have := (hfr i0).1 hne
        rwa [hb] at this
      have hfrL : p1.2[i0 + 3]? = p.2[i0 + 3]? := by
        have := (hfr (i0 + 3)).2 (by omega)
        rwa [hb] at this
      have hsh := fun m => anthesisBody_shape d i p m
      have hF1 : ∀ m, i + 1 ≤ m → m < i + 1 + k → hasRow p1.1 m := by
        intro m hm1 hm2
        have := (hsh m).1
        rw [hb] at this
        exact hasRow_of_shape m this (hF m (by omega) (by omega))
      have hL1 : ∀ m, i + 1 ≤ m → m < i + 1 + k → hasRow p1.2 (m + 3) := by
        intro m hm1 hm2
        have := (hsh (m + 3)).2
        rw [hb] at this
        exact hasRow_of_shape (m + 3) this (hL m (by omega) (by omega))
      have IH := ih (i + 1) p1 i0 (by omega) (by omega) hF1 hL1
      rw [hloop]
      constructor
      · intro v t hrow
        exact IH.1 v t (by rw [hfrF]; exact hrow)
      · intro t hrow
        obtain ⟨hA, hB⟩ := IH.2 t (by rw [hfrF]; exact hrow)
        exact ⟨hA, fun t3 h3 => hB t3 (by rw [hfrL]; exact h3)⟩

/-- Helper: `pyInt` is the floor on nonnegative arguments. -/
theorem pyInt_of_nonneg {x : ℝ} (h : 0 ≤ x) : pyInt x = ⌊x⌋ := if_pos h

/-- Helper: the committed development stage after one integrate step. -/
theorem integrate_DVS (d : ℕ) (r : PhenoRates) (s : PhenoState) :
    (integrate d r s).1.DVS = s.DVS + r.DVR := by
  simp only [integrate]
  split
  · rfl
  · split <;> rfl

/-- Helper: the committed fruit stages after one integrate step. -/
theorem integrate_DVSF (d : ℕ) (r : PhenoRates) (s : PhenoState) :
    (integrate d r s).1.DVSF = commitDVSF s.DVSF r.DVRF := by
  simp only [integrate]
  split
  · rfl
  · split <;> rfl

/-- Helper: the DOEF container after one integrate step is the truss-loop
output. -/
theorem integrate_DOEF (d : ℕ) (r : PhenoRates) (s : PhenoState) :
    (integrate d r s).1.DOEF =
      (anthesisLoop d 0 (pyInt (s.DVS + r.DVR)).toNat (s.DOEF, s.DOEL)).1.1 := by
  simp only [integrate]
  split
  · rfl
  · split <;> rfl

/-- Helper: when the truss loop raises no error, the DOEL container after
one integrate step is the back-fill output of the truss-loop DOEL. -/
theorem integrate_DOEL_ok (d : ℕ) (r : PhenoRates) (s : PhenoState)
    (h : (anthesisLoop d 0 (pyInt (s.DVS + r.DVR)).toNat (s.DOEF, s.DOEL)).2 = Option.none) :
    (integrate d r s).1.DOEL =
      (backfillLoop d 0 (pyInt (s.DVS + r.DVR + 2)).toNat
        (anthesisLoop d 0 (pyInt (s.DVS + r.DVR)).toNat (s.DOEF, s.DOEL)).1.2).1 := by
  simp only [integrate]
  split
  next e heq => rw [h] at heq; cases heq
  next heq => split <;> rfl

/-- Helper: when both loops complete, the integrate step still fails, with
the TypeError of the float list index of line 142. -/
theorem integrate_err_ok (d : ℕ) (r : PhenoRates) (s : PhenoState)
    (hA : (anthesisLoop d 0 (pyInt (s.DVS + r.DVR)).toNat (s.DOEF, s.DOEL)).2 = Option.none)
    (hB : (backfillLoop d 0 (pyInt (s.DVS + r.DVR + 2)).toNat
      (anthesisLoop d 0 (pyInt (s.DVS + r.DVR)).toNat (s.DOEF, s.DOEL)).1.2).2 = Option.none) :
    (integrate d r s).2 = some PyErr.typeError := by
  simp only [integrate]
  split
  next e heq => rw [hA] at heq; cases heq
  next heq =>
    split
    next e heq2 => rw [hB] at heq2; cases heq2
    next heq2 => rfl

/-- Helper: one integrate step never clears or overwrites a set DOEL
entry, whether or not it aborts early. -/
theorem integrate_DOEL_pres (d : ℕ) (r : PhenoRates) (s : PhenoState) (m j w : ℕ)
    (h : get2? s.DOEL m j = some (some w)) :
    get2? (integrate d r s).1.DOEL m j = some (some w) := by
  simp only [integrate]
  split
  next e heq =>
    exact (anthesisLoop_pres d _ 0 (s.DOEF, s.DOEL) m j w).2 h
  next heq =>
    split
    next e heq2 =>
      exact backfillLoop_pres d _ 0 _ m j w
        ((anthesisLoop_pres d _ 0 (s.DOEF, s.DOEL) m j w).2 h)
    next heq2 =>
      exact backfillLoop_pres d _ 0 _ m j w
        ((anthesisLoop_pres d _ 0 (s.DOEF, s.DOEL) m j w).2 h)

/-- Claim C5: a DOEF or DOEL entry that holds a date before an integrate
step holds the same date after it; in particular the slot-0 re-assignment
branch of lines 146-147 never fires (it sits behind the float-index
TypeError of line 142), so no exception to first-writer-wins is ever
exercised. -/
theorem claim_C5 (d : ℕ) (r : PhenoRates) (s : PhenoState) (i j v : ℕ) :
    (get2? s.DOEF i j = some (some v) →
      get2? (integrate d r s).1.DOEF i j = some (some v)) ∧
    (get2? s.DOEL i j = some (some v) →
      get2? (integrate d r s).1.DOEL i j = some (some v)) := by
  constructor
  · intro h
    rw [integrate_DOEF]
    exact (anthesisLoop_pres d _ 0 (s.DOEF, s.DOEL) i j v).1 h
  · exact integrate_DOEL_pres d r s i j v

/-- Witness for C5 on a one-truss, one-unit state with both entries set. -/
theorem claim_C5_witness :
    get2? [[some 1]] 0 0 = some (some 1) ∧
    get2? [[some 2]] 0 0 = some (some 2) ∧
    get2? (integrate 3 ⟨0, []⟩ ⟨0, [], [[some 2]], [[some 1]], []⟩).1.DOEF 0 0
      = some (some 1) ∧
    get2? (integrate 3 ⟨0, []⟩ ⟨0, [], [[some 2]], [[some 1]], []⟩).1.DOEL 0 0
      = some (some 2) :=
  ⟨rfl, rfl,
    (claim_C5 3 ⟨0, []⟩ ⟨0, [], [[some 2]], [[some 1]], []⟩ 0 0 1).1 rfl,
    (claim_C5 3 ⟨0, []⟩ ⟨0, [], [[some 2]], [[some 1]], []⟩ 0 0 2).2 rfl⟩

/-- Claim C4 (code bug): with post-commit stage `0.5`, the claim expects the
unit at `floor(DVS) + 3 = 3` to get its first leaf date; the code instead
computes the float index `DVS + 3` at line 141 and raises TypeError at line
142, so the step errors and `DOEL[3][0]` stays unset. -/
theorem claim_C4 :
    (integrate 7 C4r C4s).2 = some PyErr.typeError ∧
    get2? (integrate 7 C4r C4s).1.DOEL 3 0 = some Option.none := by
  have hfuel1 : (pyInt (C4s.DVS + C4r.DVR)).toNat = 0 := by
    have h0 : C4s.DVS + C4r.DVR = (1 / 2 : ℝ) := by
      show (0 : ℝ) + 1 / 2 = 1 / 2
      norm_num
    rw [h0, pyInt_of_nonneg (by norm_num)]
    have hf : ⌊(1 / 2 : ℝ)⌋ = 0 := by
      rw [Int.floor_eq_iff]
      constructor <;> norm_num
    rw [hf]
    rfl
  have hfuel2 : (pyInt (C4s.DVS + C4r.DVR + 2)).toNat = 2 := by
    have h0 : C4s.DVS + C4r.DVR + 2 = (5 / 2 : ℝ) := by
      show (0 : ℝ) + 1 / 2 + 2 = 5 / 2
      norm_num
    rw [h0, pyInt_of_nonneg (by norm_num)]
    have hf : ⌊(5 / 2 : ℝ)⌋ = 2 := by
      rw [Int.floor_eq_iff]
      constructor <;> norm_num
    rw [hf]
    rfl
  have hA : (anthesisLoop 7 0 (pyInt (C4s.DVS + C4r.DVR)).toNat
      (C4s.DOEF, C4s.DOEL)).2 = Option.none := by
    rw [hfuel1]
    rfl
  have hB : (backfillLoop 7 0 (pyInt (C4s.DVS + C4r.DVR + 2)).toNat
      (anthesisLoop 7 0 (pyInt (C4s.DVS + C4r.DVR)).toNat (C4s.DOEF, C4s.DOEL)).1.2).2
      = Option.none := by
    rw [hfuel1, hfuel2]
    rfl
  refine ⟨integrate_err_ok 7 C4r C4s hA hB, ?_⟩
  rw [integrate_DOEL_ok 7 C4r C4s hA, hfuel1, hfuel2]
  rfl

/-- Counterexample for C7: with a 1x2-shaped `DVSF` and a 1x1-shaped
`DVRF`, the commit silently truncates to the common shape and commits
`[[1 + 1/2]]`, instead of failing with any ShapeMismatch error before
committing. -/
theorem claim_C7_cex :
    (integrate 5 ⟨0, [[1 / 2]]⟩ ⟨0, [[1, 2]], [], [], []⟩).1.DVSF = [[3 / 2]] := by
  rw [integrate_DVSF]
  show commitDVSF [[1, 2]] [[1 / 2]] = [[3 / 2]]
  simp only [commitDVSF, List.zipWith]
  norm_num

/-- Claim C7 (amended): the commit adds `DVR` to `DVS` and combines `DVSF`
with `DVRF` elementwise with zip semantics, truncating both nesting levels
to the shorter operand instead of raising any shape error; wherever both
entries exist the committed entry is their sum. -/
theorem claim_C7 (d : ℕ) (r : PhenoRates) (s : PhenoState) :
    (integrate d r s).1.DVS = s.DVS + r.DVR ∧
    (integrate d r s).1.DVSF = commitDVSF s.DVSF r.DVRF ∧
    (∀ (i j : ℕ) (x y : ℝ), get2? s.DVSF i j = some x → get2? r.DVRF i j = some y →
      get2? (integrate d r s).1.DVSF i j = some (x + y)) := by
  refine ⟨integrate_DVS d r s, integrate_DVSF d r s, fun i j x y hx hy => ?_⟩
  rw [integrate_DVSF]
  unfold get2? at hx hy ⊢
  unfold commitDVSF
  cases h1 : s.DVSF[i]? with
  | none => rw [h1] at hx; simp at hx
  | some r1 =>
    cases h2 : r.DVRF[i]? with
    | none => rw [h2] at hy; simp at hy
    | some r2 =>
      rw [h1, Option.some_bind] at hx
      rw [h2, Option.some_bind] at hy
      simp [List.getElem?_zipWith, h1, h2, hx, hy]

/-- Witness for C7 on matching 1x1 shapes. -/
theorem claim_C7_witness :
    get2? [[(1 : ℝ)]] 0 0 = some 1 ∧
    get2? [[(2 : ℝ)]] 0 0 = some 2 ∧
    get2? (integrate 3 ⟨5, [[2]]⟩ ⟨4, [[1]], [], [], []⟩).1.DVSF 0 0 = some (1 + 2) :=
  ⟨rfl, rfl, (claim_C7 3 ⟨5, [[2]]⟩ ⟨4, [[1]], [], [], []⟩).2.2 0 0 1 2 rfl rfl⟩

/-- Claim C6: in one integrate step, for each truss `i` below the
post-commit `floor(DVS)` with sufficient capacity: if `DOEF[i][0]` is set,
every set flower slot keeps its date, exactly the first unset slot among
`j = 1, 2, ..` receives the current day, and every slot after an earlier
unset slot is unchanged; if `DOEF[i][0]` is unset, it receives the current
day, no later slot of the truss changes, and an unset `DOEL[i+3][0]`
receives the same day. -/
theorem claim_C6 (d : ℕ) (r : PhenoRates) (s : PhenoState) (n : ℕ)
    (h0 : 0 ≤ s.DVS + r.DVR) (hn : (n : ℤ) = ⌊s.DVS + r.DVR⌋)
    (hF : ∀ m, m < n → hasRow s.DOEF m)
    (hL : ∀ m, m < n → hasRow s.DOEL (m + 3)) :
    ∀ i, i < n →
      (∀ v : ℕ, get2? s.DOEF i 0 = some (some v) →
        get2? (integrate d r s).1.DOEF i 0 = some (some v) ∧
        (∀ j w : ℕ, 1 ≤ j → get2? s.DOEF i j = some (some w) →
          get2? (integrate d r s).1.DOEF i j = some (some w)) ∧
        (∀ j : ℕ, 1 ≤ j → get2? s.DOEF i j = some Option.none →
          (∀ k, 1 ≤ k → k < j → get2? s.DOEF i k ≠ some Option.none) →
          get2? (integrate d r s).1.DOEF i j = some (some d)) ∧
        (∀ j j0 : ℕ, 1 ≤ j0 → j0 < j → get2? s.DOEF i j0 = some Option.none →
          get2? (integrate d r s).1.DOEF i j = get2? s.DOEF i j)) ∧
      (get2? s.DOEF i 0 = some Option.none →
        get2? (integrate d r s).1.DOEF i 0 = some (some d) ∧
        (∀ j : ℕ, 1 ≤ j → get2? (integrate d r s).1.DOEF i j = get2? s.DOEF i j) ∧
        (get2? s.DOEL (i + 3) 0 = some Option.none →
          get2? (integrate d r s).1.DOEL (i + 3) 0 = some (some d))) := by
  intro i hi
  have hfuel : (pyInt (s.DVS + r.DVR)).toNat = n := by
    rw [pyInt_of_nonneg h0, ← hn, Int.toNat_natCast]
  have hF0 : ∀ m, 0 ≤ m → m < 0 + n → hasRow (s.DOEF, s.DOEL).1 m :=
    fun m _ hm => hF m (by omega)
  have hL0 : ∀ m, 0 ≤ m → m < 0 + n → hasRow (s.DOEF, s.DOEL).2 (m + 3) :=
    fun m _ hm => hL m (by omega)
  have hA2 : (anthesisLoop d 0 n (s.DOEF, s.DOEL)).2 = Option.none :=
    anthesisLoop_ok d n 0 (s.DOEF, s.DOEL) hF0 hL0
  have hDOEF : (integrate d r s).1.DOEF = (anthesisLoop d 0 n (s.DOEF, s.DOEL)).1.1 := by
    rw [integrate_DOEF, hfuel]
  have hDOEL : (integrate d r s).1.DOEL =
      (backfillLoop d 0 (pyInt (s.DVS + r.DVR + 2)).toNat
        (anthesisLoop d 0 n (s.DOEF, s.DOEL)).1.2).1 := by
    rw [integrate_DOEL_ok d r s (by rw [hfuel]; exact hA2), hfuel]
  have hchar := anthesisLoop_char d n 0 (s.DOEF, s.DOEL) i (Nat.zero_le i)
    (by omega) hF0 hL0
  obtain ⟨row, hrow, hrne⟩ := hF i hi
  cases row with
  | nil => exact (hrne rfl).elim
  | cons a t =>
    constructor
    · intro v hv
      have ha : a = some v := by
        unfold get2? at hv
        rw [hrow, Option.some_bind, List.getElem?_cons_zero] at hv
        exact Option.some_injective _ hv
      subst ha
      have hres : (anthesisLoop d 0 n (s.DOEF, s.DOEL)).1.1[i]? =
          some (some v :: setFirstUnset d t) := hchar.1 v t hrow
      refine ⟨?_, ?_, ?_, ?_⟩
      · rw [hDOEF]
        unfold get2?
        rw [hres, Option.some_bind, List.getElem?_cons_zero]
      · intro j w hj hw
        rw [hDOEF]
        unfold get2?
        rw [hres, Option.some_bind]
        obtain ⟨j', rfl⟩ : ∃ j', j = j' + 1 := ⟨j - 1, by omega⟩
        rw [List.getElem?_cons_succ]
        have hw' : t[j']? = some (some w) := by
          unfold get2? at hw
          rw [hrow, Option.some_bind, List.getElem?_cons_succ] at hw
          exact hw
        exact setFirstUnset_pres_some d t j' w hw'
      · intro j hj hnone hfirst
        rw [hDOEF]
        unfold get2?
        rw [hres, Option.some_bind]
        obtain ⟨j', rfl⟩ : ∃ j', j = j' + 1 := ⟨j - 1, by omega⟩
        rw [List.getElem?_cons_succ]
        apply setFirstUnset_first d t j'
        · unfold get2? at hnone
          rw [hrow, Option.some_bind, List.getElem?_cons_succ] at hnone
          exact hnone
        · intro k hk
          have hke := hfirst (k + 1) (by omega) (by omega)
          unfold get2? at hke
          rw [hrow, Option.some_bind, List.getElem?_cons_succ] at hke
          exact hke
      · intro j j0 hj0 hj0j hnone
        rw [hDOEF]
        unfold get2?
        rw [hres, Option.some_bind]
        obtain ⟨j0', rfl⟩ : ∃ j0', j0 = j0' + 1 := ⟨j0 - 1, by omega⟩
        obtain ⟨j', rfl⟩ : ∃ j', j = j' + 1 := ⟨j - 1, by omega⟩
        rw [List.getElem?_cons_succ]
        have hnone' : t[j0']? = some Option.none := by
          unfold get2? at hnone
          rw [hrow, Option.some_bind, List.getElem?_cons_succ] at hnone
          exact hnone
        rw [setFirstUnset_after d t j0' j' (by omega) hnone', hrow, Option.some_bind,
          List.getElem?_cons_succ]
    · intro hnone0
      have ha : a = Option.none := by
        unfold get2? at hnone0
        rw [hrow, Option.some_bind, List.getElem?_cons_zero] at hnone0
        exact Option.some_injective _ hnone0
      subst ha
      have hch := hchar.2 t hrow
      refine ⟨?_, ?_, ?_⟩
      · rw [hDOEF]
        unfold get2?
        rw [hch.1, Option.some_bind, List.getElem?_cons_zero]
      · intro j hj
        rw [hDOEF]
        unfold get2?
        rw [hch.1, Option.some_bind]
        obtain ⟨j', rfl⟩ : ∃ j', j = j' + 1 := ⟨j - 1, by omega⟩
        rw [List.getElem?_cons_succ, hrow, Option.some_bind, List.getElem?_cons_succ]
      · intro hL0entry
        obtain ⟨row3, hrow3, hr3ne⟩ := hL i hi
        cases row3 with
        | nil => exact (hr3ne rfl).elim
        | cons b t3 =>
          have hb : b = Option.none := by
            unfold get2? at hL0entry
            rw [hrow3, Option.some_bind, List.getElem?_cons_zero] at hL0entry
            exact Option.some_injective _ hL0entry
          subst hb
          have hres3 := hch.2 t3 hrow3
          have hmid : get2? (anthesisLoop d 0 n (s.DOEF, s.DOEL)).1.2 (i + 3) 0
              = some (some d) := by
            unfold get2?
            rw [hres3, Option.some_bind, List.getElem?_cons_zero]
          rw [hDOEL]
          exact backfillLoop_pres d _ 0 _ (i + 3) 0 d hmid

/-- Witness for C6 on a state with one unstarted truss and an unset leading
vegetative unit at index 3. -/
theorem claim_C6_witness :
    get2? C6s.DOEF 0 0 = some Option.none ∧
    get2? C6s.DOEL 3 0 = some Option.none ∧
    get2? (integrate 9 C6r C6s).1.DOEF 0 0 = some (some 9) ∧
    get2? (integrate 9 C6r C6s).1.DOEL 3 0 = some (some 9) := by
  have hn : ((1 : ℕ) : ℤ) = ⌊C6s.DVS + C6r.DVR⌋ := by
    have hf : ⌊C6s.DVS + C6r.DVR⌋ = 1 := by
      show ⌊(1 / 2 : ℝ) + 1⌋ = 1
      rw [Int.floor_eq_iff]
      constructor <;> norm_num
    rw [hf]
    rfl
  have hF : ∀ m, m < 1 → hasRow C6s.DOEF m := by
    intro m hm
    have hm0 : m = 0 := by omega
    subst hm0
    exact ⟨[Option.none], rfl, by simp⟩
  have hL : ∀ m, m < 1 → hasRow C6s.DOEL (m + 3) := by
    intro m hm
    have hm0 : m = 0 := by omega
    subst hm0
    exact ⟨[Option.none, Option.none, Option.none], rfl, by simp⟩
  have h := claim_C6 9 C6r C6s 1 (by show (0 : ℝ) ≤ 1 / 2 + 1; norm_num) hn hF hL 0
    (by norm_num)
  have h2 := h.2 rfl
  exact ⟨rfl, rfl, h2.1, h2.2.2 rfl⟩

end Phenology
